import Mathlib

/-!
Shallow embedding of the `sqlite-rust` sources (src/main.rs, src/varint.rs,
src/types.rs, src/query_parser.rs) and proofs settling the frozen claims.

Bytes are modelled as `Nat` (with explicit `% 256` / `% 128` where the Rust
code masks), byte streams as `List Nat`, and a sequential reader as a pair
of the underlying byte list and a cursor position.  Fallible Rust code is
modelled with `Except Err`; Rust panics (`todo!`, `unwrap`, slice-index out
of bounds, debug-mode integer underflow) are modelled as `Except.error
Err.panic`, while `anyhow::bail!` (a typed error value returned to the
caller) is `Except.error (Err.bail msg)` and an `io::Error` from
`read_exact` is `Except.error Err.io`.
-/

/-- Error outcomes of the embedded Rust code.  `io` models an `io::Error`
propagated with `?` (e.g. a failed `read_exact`); `panic` models a Rust
panic (`todo!`, `.unwrap()`, out-of-bounds slice index, debug-mode integer
underflow); `bail` models `anyhow::bail!(msg)`; `format` models a typed
format error; `utf8` models `String::from_utf8` failing. -/
inductive Err where
  | io : Err
  | panic : Err
  | bail : String → Err
  | format : Err
  | utf8 : Err
deriving DecidableEq, Repr

/-- Models `reader.read_exact(&mut buf)` for a buffer of `n` bytes against a
reader positioned at `pos` over the byte list `file`: returns the `n` bytes
and the advanced position, or an `io` error when the file is exhausted. -/
def read_exact (file : List Nat) (pos n : Nat) : Except Err (List Nat × Nat) :=
  if pos + n ≤ file.length then
    Except.ok ((file.drop pos).take n, pos + n)
  else
    Except.error Err.io

/-! ## varint.rs -/

/-- Models `(byte & IS_FIRST_BIT_ZERO_MASK) == 0` for a `u8`: bit 7 is clear.
For a byte value (`< 256`) this is `byte < 128`. -/
def starts_with_zero (byte : Nat) : Bool :=
  byte % 256 < 128

/-- Models `varint.rs::usable_value`.  Note the source returns `usable_size`
itself (the constant 8) in the `usable_size == 8` branch, not the byte.
`byte & LAST_SEVEN_BITS_MASK` is `byte % 128`. -/
def usable_value (usable_size byte : Nat) : Nat :=
  if usable_size == 8 then usable_size else byte % 128

/-- The `fold` in `parse_varint` / `parse_varint_from_reader`, with the
`enumerate` index made explicit: `usable_size` is 8 for index 8 and 7
otherwise, and each step computes `(value << usable_size) +
usable_value(usable_size, byte)`. -/
def varint_fold_aux (i value : Nat) : List Nat → Nat
  | [] => value
  | b :: rest =>
    let usable_size := if i == 8 then 8 else 7
    varint_fold_aux (i + 1) ((value <<< usable_size) + usable_value usable_size b) rest

/-- Models `varint.rs::read_usable_bytes`, the `for i in 0..9` loop made a fuel
recursion (fuel starts at 9).  `stream[i]` on an exhausted slice is a Rust
index panic, modelled as `Err.panic`. -/
def read_usable_bytes_aux : List Nat → Nat → Except Err (List Nat)
  | _, 0 => Except.ok []
  | [], _ + 1 => Except.error Err.panic
  | b :: rest, fuel + 1 =>
    if starts_with_zero b then
      Except.ok [b]
    else
      match read_usable_bytes_aux rest fuel with
      | Except.ok tail => Except.ok (b :: tail)
      | Except.error e => Except.error e

/-- Models `varint.rs::read_usable_bytes`. -/
def read_usable_bytes (stream : List Nat) : Except Err (List Nat) :=
  read_usable_bytes_aux stream 9

/-- Models `varint.rs::parse_varint`: collect the usable bytes, fold them, and
return `(varint, bytes_read)`. -/
def parse_varint (stream : List Nat) : Except Err (Nat × Nat) :=
  match read_usable_bytes stream with
  | Except.ok usable_bytes =>
    Except.ok (varint_fold_aux 0 0 usable_bytes, usable_bytes.length)
  | Except.error e => Except.error e

/-- Models `varint.rs::read_usable_bytes_from_reader`, reading from `file` at
`pos`; `reader.read_exact(&mut byte).unwrap()` panics at end of file
(`Err.panic`).  Returns the usable bytes and the advanced position. -/
def read_usable_bytes_from_reader_aux (file : List Nat) : Nat → Nat → Except Err (List Nat × Nat)
  | pos, 0 => Except.ok ([], pos)
  | pos, fuel + 1 =>
    match file[pos]? with
    | none => Except.error Err.panic
    | some b =>
      if starts_with_zero b then
        Except.ok ([b], pos + 1)
      else
        match read_usable_bytes_from_reader_aux file (pos + 1) fuel with
        | Except.ok (tail, pos') => Except.ok (b :: tail, pos')
        | Except.error e => Except.error e

/-- Models `varint.rs::read_usable_bytes_from_reader`. -/
def read_usable_bytes_from_reader (file : List Nat) (pos : Nat) : Except Err (List Nat × Nat) :=
  read_usable_bytes_from_reader_aux file pos 9

/-- Models `varint.rs::parse_varint_from_reader`: returns
`(varint, bytes_read, new position)`. -/
def parse_varint_from_reader (file : List Nat) (pos : Nat) : Except Err (Nat × Nat × Nat) :=
  match read_usable_bytes_from_reader file pos with
  | Except.ok (usable_bytes, pos') =>
    Except.ok (varint_fold_aux 0 0 usable_bytes, usable_bytes.length, pos')
  | Except.error e => Except.error e

/-! ## types.rs -/

/-- Models `types.rs::SerialType`. -/
inductive SerialType where
  | Null : SerialType
  | Int8 : SerialType
  | Int16 : SerialType
  | Int24 : SerialType
  | Int32 : SerialType
  | Int48 : SerialType
  | Int64 : SerialType
  | Float : SerialType
  | Zero : SerialType
  | One : SerialType
  | Blob : Nat → SerialType
  | String : Nat → SerialType
deriving DecidableEq, Repr

/-- Models `types.rs::SerialType::from` (named `fromCode` because `from` is a Lean
keyword).  Codes 10 and 11 hit `todo!()`, a Rust panic. -/
def SerialType.fromCode (raw_serial_type : Nat) : Except Err SerialType :=
  match raw_serial_type with
  | 0 => Except.ok SerialType.Null
  | 1 => Except.ok SerialType.Int8
  | 2 => Except.ok SerialType.Int16
  | 3 => Except.ok SerialType.Int24
  | 4 => Except.ok SerialType.Int32
  | 5 => Except.ok SerialType.Int48
  | 6 => Except.ok SerialType.Int64
  | 7 => Except.ok SerialType.Float
  | 8 => Except.ok SerialType.Zero
  | 9 => Except.ok SerialType.One
  | 10 => Except.error Err.panic
  | 11 => Except.error Err.panic
  | n =>
    if n % 2 == 0 then
      Except.ok (SerialType.Blob ((n - 12) / 2))
    else
      Except.ok (SerialType.String ((n - 13) / 2))

/-- Models `types.rs::SerialValue`.  `Float` keeps the raw big-endian bytes of the
IEEE-754 double (`f64::from_be_bytes` is a bijection on bit patterns;
the numeric interpretation is not needed by any claim), `String` keeps the
UTF-8 validated bytes. -/
inductive SerialValue where
  | Null : SerialValue
  | Int8 : Int → SerialValue
  | Int16 : Int → SerialValue
  | Int24 : Int → SerialValue
  | Int32 : Int → SerialValue
  | Int48 : Int → SerialValue
  | Int64 : Int → SerialValue
  | Float : List Nat → SerialValue
  | Zero : SerialValue
  | One : SerialValue
  | Blob : List Nat → SerialValue
  | String : List Nat → SerialValue
deriving DecidableEq, Repr

/-- Big-endian byte concatenation, as done by `iN::from_be_bytes`. -/
def from_be (bytes : List Nat) : Nat :=
  bytes.foldl (fun acc b => acc * 256 + b % 256) 0

/-- Twos-complement reinterpretation of a `w`-bit unsigned value as the
signed integer an `iw` holds, as done by `iN::from_be_bytes`. -/
def to_signed (w n : Nat) : Int :=
  if n % 2 ^ w < 2 ^ (w - 1) then ((n % 2 ^ w : Nat) : Int)
  else ((n % 2 ^ w : Nat) : Int) - 2 ^ w

/-- Is a continuation byte of a UTF-8 sequence (`0x80..=0xBF`). -/
def utf8_cont (c : Nat) : Bool :=
  0x80 ≤ c && c ≤ 0xBF

/-- UTF-8 validity of a byte sequence, the check performed by the Rust
`String::from_utf8` (RFC 3629: no overlong forms, no surrogates, max
U+10FFFF). -/
def utf8_valid : List Nat → Bool
  | [] => true
  | b :: rest =>
    if b ≤ 0x7F then utf8_valid rest
    else if 0xC2 ≤ b && b ≤ 0xDF then
      match rest with
      | c1 :: r => utf8_cont c1 && utf8_valid r
      | [] => false
    else if b == 0xE0 then
      match rest with
      | c1 :: c2 :: r => (0xA0 ≤ c1 && c1 ≤ 0xBF) && utf8_cont c2 && utf8_valid r
      | _ => false
    else if (0xE1 ≤ b && b ≤ 0xEC) || b == 0xEE || b == 0xEF then
      match rest with
      | c1 :: c2 :: r => utf8_cont c1 && utf8_cont c2 && utf8_valid r
      | _ => false
    else if b == 0xED then
      match rest with
      | c1 :: c2 :: r => (0x80 ≤ c1 && c1 ≤ 0x9F) && utf8_cont c2 && utf8_valid r
      | _ => false
    else if b == 0xF0 then
      match rest with
      | c1 :: c2 :: c3 :: r =>
        (0x90 ≤ c1 && c1 ≤ 0xBF) && utf8_cont c2 && utf8_cont c3 && utf8_valid r
      | _ => false
    else if 0xF1 ≤ b && b ≤ 0xF3 then
      match rest with
      | c1 :: c2 :: c3 :: r =>
        utf8_cont c1 && utf8_cont c2 && utf8_cont c3 && utf8_valid r
      | _ => false
    else if b == 0xF4 then
      match rest with
      | c1 :: c2 :: c3 :: r =>
        (0x80 ≤ c1 && c1 ≤ 0x8F) && utf8_cont c2 && utf8_cont c3 && utf8_valid r
      | _ => false
    else false

/-- Models `types.rs::SerialValue::parse`, reading from `file` at `pos`; returns
the decoded value and the advanced position.  Note the `Int24` branch
builds `i32::from_be_bytes([0, buf[0], buf[1], buf[2]])` and the `Int48`
branch `i64::from_be_bytes([0, 0, buf[0], .., buf[5]])`: the high bytes
are zero-padded, exactly as in the source. -/
def SerialValue.parse (file : List Nat) (pos : Nat) :
    SerialType → Except Err (SerialValue × Nat)
  | SerialType.Null => Except.ok (SerialValue.Null, pos)
  | SerialType.Int8 =>
    match read_exact file pos 1 with
    | Except.ok (buf, pos') => Except.ok (SerialValue.Int8 (to_signed 8 (from_be buf)), pos')
    | Except.error e => Except.error e
  | SerialType.Int16 =>
    match read_exact file pos 2 with
    | Except.ok (buf, pos') => Except.ok (SerialValue.Int16 (to_signed 16 (from_be buf)), pos')
    | Except.error e => Except.error e
  | SerialType.Int24 =>
    match read_exact file pos 3 with
    | Except.ok (buf, pos') =>
      Except.ok (SerialValue.Int24 (to_signed 32 (from_be (0 :: buf))), pos')
    | Except.error e => Except.error e
  | SerialType.Int32 =>
    match read_exact file pos 4 with
    | Except.ok (buf, pos') => Except.ok (SerialValue.Int32 (to_signed 32 (from_be buf)), pos')
    | Except.error e => Except.error e
  | SerialType.Int48 =>
    match read_exact file pos 6 with
    | Except.ok (buf, pos') =>
      Except.ok (SerialValue.Int48 (to_signed 64 (from_be (0 :: 0 :: buf))), pos')
    | Except.error e => Except.error e
  | SerialType.Int64 =>
    match read_exact file pos 8 with
    | Except.ok (buf, pos') => Except.ok (SerialValue.Int64 (to_signed 64 (from_be buf)), pos')
    | Except.error e => Except.error e
  | SerialType.Float =>
    match read_exact file pos 8 with
    | Except.ok (buf, pos') => Except.ok (SerialValue.Float buf, pos')
    | Except.error e => Except.error e
  | SerialType.Zero => Except.ok (SerialValue.Zero, pos)
  | SerialType.One => Except.ok (SerialValue.One, pos)
  | SerialType.Blob size =>
    match read_exact file pos size with
    | Except.ok (buf, pos') => Except.ok (SerialValue.Blob buf, pos')
    | Except.error e => Except.error e
  | SerialType.String size =>
    match read_exact file pos size with
    | Except.ok (buf, pos') =>
      if utf8_valid buf then Except.ok (SerialValue.String buf, pos')
      else Except.error Err.utf8
    | Except.error e => Except.error e

/-! ## header.rs (not present under src/; modelled from the spec) -/

/-- Modelled from the spec: the `BTreePage` page-type variant of the
missing `header.rs` module (`sqlite_starter_rust::header::BTreePage`),
"variant: TableLeaf, TableInterior, IndexLeaf, IndexInterior", with the
`LeafTable`/`InteriorTable` naming of the source used by `main.rs`. -/
inductive BTreePage where
  | InteriorIndex : BTreePage
  | InteriorTable : BTreePage
  | LeafIndex : BTreePage
  | LeafTable : BTreePage
deriving DecidableEq, Repr

/-- Modelled from the spec: the `PageHeader` struct of the missing
`header.rs` module: page-type tag byte, 2-byte first-freeblock offset,
2-byte cell count, 2-byte content-area start (0 reinterpreted as 65536),
1-byte fragmented-free-byte count. -/
structure PageHeader where
  page_type : BTreePage
  first_freeblock_offset : Nat
  number_of_cells : Nat
  content_area_start : Nat
  fragmented_free_bytes : Nat
deriving DecidableEq, Repr

/-- Modelled from the spec: `PageHeader::parse` of the missing `header.rs`
module, over the 8 header bytes `main.rs` hands it; the page-type tag
values 2, 5, 10, 13 are those of the on-disk format the spec references,
and an unknown tag is a FormatError. -/
def PageHeader.parse (bytes : List Nat) : Except Err PageHeader :=
  match bytes with
  | [t, f1, f2, c1, c2, s1, s2, g] =>
    match (match t with
           | 2 => Except.ok BTreePage.InteriorIndex
           | 5 => Except.ok BTreePage.InteriorTable
           | 10 => Except.ok BTreePage.LeafIndex
           | 13 => Except.ok BTreePage.LeafTable
           | _ => Except.error Err.format) with
    | Except.ok page_type =>
      Except.ok
        { page_type := page_type
          first_freeblock_offset := f1 * 256 + f2
          number_of_cells := c1 * 256 + c2
          content_area_start := if s1 * 256 + s2 == 0 then 65536 else s1 * 256 + s2
          fragmented_free_bytes := g }
    | Except.error e => Except.error e
  | _ => Except.error Err.format

/-! ## main.rs -/

/-- Models `main.rs::Page`. -/
structure Page where
  header : PageHeader
deriving DecidableEq, Repr

/-- Models `main.rs::Database`: the open file is modelled as its byte list. -/
structure Database where
  page_size : Nat
  page_count : Nat
  database_file : List Nat
deriving DecidableEq, Repr

/-- Models `main.rs::Record`. -/
structure Record where
  row_id : Nat
  serial_types : List SerialType
  serial_values : List SerialValue
deriving DecidableEq, Repr

/-- Models `main.rs::Database::seek_to_page`: bounds-check the 1-based page
number, seek to `(page_num - 1) * page_size` (plus 100 on page 1 for the
database header), read and parse the 8 page-header bytes.  Returns the
page together with the reader position after those 8 bytes. -/
def Database.seek_to_page (db : Database) (page_num : Nat) : Except Err (Page × Nat) :=
  if page_num < 1 ∨ page_num > db.page_count then
    Except.error (Err.bail ("seek_to_page: page_num out of bounds"))
  else
    let seek_offset := (page_num - 1) * db.page_size + (if page_num == 1 then 100 else 0)
    match read_exact db.database_file seek_offset 8 with
    | Except.ok (page_header_bytes, pos) =>
      match PageHeader.parse page_header_bytes with
      | Except.ok header => Except.ok ({ header := header }, pos)
      | Except.error e => Except.error e
    | Except.error e => Except.error e

/-- Models `main.rs::Page::build_cell_pointers`: read `number_of_cells` big-endian
`u16` values from the reader.  The recursion is on the remaining count. -/
def build_cell_pointers (file : List Nat) : Nat → Nat → Except Err (List Nat × Nat)
  | pos, 0 => Except.ok ([], pos)
  | pos, n + 1 =>
    match read_exact file pos 2 with
    | Except.ok (cell_pointer_buffer, pos') =>
      match build_cell_pointers file pos' n with
      | Except.ok (rest, pos'') => Except.ok (from_be cell_pointer_buffer :: rest, pos'')
      | Except.error e => Except.error e
    | Except.error e => Except.error e

/-- Models `main.rs::Page::fetch_cell_pointers`. -/
def Page.fetch_cell_pointers (page : Page) (file : List Nat) (pos : Nat) :
    Except Err (List Nat × Nat) :=
  build_cell_pointers file pos page.header.number_of_cells

/-- The loop body of `main.rs::build_payloads` over the cell-pointer list:
seek to the cell offset, parse the payload-size and row-id varints, read
`payload_size` payload bytes, evaluate the overflow threshold formulas
`x = u - 35`, `m = (u - 12) * 32 / 255 - 23`, `_k = m + (p - m) % (u - 4)`
(each `u32` subtraction panics in a debug build when it would underflow),
and `bail!("Unhandled overflow")` when `p > x`. -/
def build_payloads_go (u : Nat) (file : List Nat) :
    List Nat → Except Err (List (Nat × Nat × List Nat))
  | [] => Except.ok []
  | offset :: rest =>
    match parse_varint_from_reader file offset with
    | Except.error e => Except.error e
    | Except.ok (payload_size, _bytes_read_1, pos1) =>
      match parse_varint_from_reader file pos1 with
      | Except.error e => Except.error e
      | Except.ok (row_id, _bytes_read_2, pos2) =>
        match read_exact file pos2 payload_size with
        | Except.error e => Except.error e
        | Except.ok (payload_bytes, _pos3) =>
          let p := payload_size
          if u < 35 then Except.error Err.panic
          else
            let x := u - 35
            if u < 12 then Except.error Err.panic
            else if (u - 12) * 32 / 255 < 23 then Except.error Err.panic
            else
              let m := (u - 12) * 32 / 255 - 23
              if p < m then Except.error Err.panic
              else
                let _k := m + (p - m) % (u - 4)
                if p > x then Except.error (Err.bail ("Unhandled overflow"))
                else
                  match build_payloads_go u file rest with
                  | Except.ok payloads => Except.ok ((payload_size, row_id, payload_bytes) :: payloads)
                  | Except.error e => Except.error e

/-- Models `main.rs::build_payloads`: only a `LeafTable` page is handled; any
other page type hits `todo!(..)`, a Rust panic. -/
def build_payloads (database_page_size : Nat) (page : Page) (cell_pointers : List Nat)
    (file : List Nat) : Except Err (List (Nat × Nat × List Nat)) :=
  match page.header.page_type with
  | BTreePage.LeafTable => build_payloads_go database_page_size file cell_pointers
  | _ => Except.error Err.panic

/-- The record-header `loop` of `main.rs::build_records`: parse a
serial-type varint, convert it with `SerialType::from` (codes 10/11 panic),
push it, subtract the byte count of the varint from
`record_header_bytes_remaining` (a `usize`; underflow is a debug-build
panic, modelled as `Err.panic`), and stop when the remainder hits exactly
0.  The `col_type_bytes_read = 0` branch is unreachable (a parsed varint
always consumes at least one byte) and is mapped to the nonterminating
model of that behaviour, `Err.panic`. -/
def parse_serial_types (payload : List Nat) (pos remaining : Nat) :
    Except Err (List SerialType × Nat) :=
  match parse_varint_from_reader payload pos with
  | Except.error e => Except.error e
  | Except.ok (column_serial_type, col_type_bytes_read, pos') =>
    match SerialType.fromCode column_serial_type with
    | Except.error e => Except.error e
    | Except.ok serial_type =>
      match col_type_bytes_read with
      | 0 => Except.error Err.panic
      | r + 1 =>
        if remaining < r + 1 then Except.error Err.panic
        else if remaining - (r + 1) = 0 then Except.ok ([serial_type], pos')
        else
          match parse_serial_types payload pos' (remaining - (r + 1)) with
          | Except.ok (rest, pos'') => Except.ok (serial_type :: rest, pos'')
          | Except.error e => Except.error e
termination_by remaining
decreasing_by simp_wf; omega

/-- The value loop of `main.rs::build_records`: decode one `SerialValue`
per `SerialType`, in order. -/
def parse_serial_values (payload : List Nat) : Nat → List SerialType → Except Err (List SerialValue × Nat)
  | pos, [] => Except.ok ([], pos)
  | pos, t :: ts =>
    match SerialValue.parse payload pos t with
    | Except.ok (serial_value, pos') =>
      match parse_serial_values payload pos' ts with
      | Except.ok (rest, pos'') => Except.ok (serial_value :: rest, pos'')
      | Except.error e => Except.error e
    | Except.error e => Except.error e

/-- One iteration of `main.rs::build_records` over a
`(payload_size, row_id, payload_bytes)` triple: parse the header-length
varint, compute `record_header_bytes_remaining = record_header_byte_count
- bytes_read_3` (usize underflow panics), run the serial-type loop, then
decode the values. -/
def build_record (row_id : Nat) (payload_bytes : List Nat) : Except Err Record :=
  match parse_varint_from_reader payload_bytes 0 with
  | Except.error e => Except.error e
  | Except.ok (record_header_byte_count, bytes_read_3, pos) =>
    if record_header_byte_count < bytes_read_3 then Except.error Err.panic
    else
      match parse_serial_types payload_bytes pos (record_header_byte_count - bytes_read_3) with
      | Except.error e => Except.error e
      | Except.ok (serial_types, pos') =>
        match parse_serial_values payload_bytes pos' serial_types with
        | Except.error e => Except.error e
        | Except.ok (serial_values, _) =>
          Except.ok { row_id := row_id, serial_types := serial_types, serial_values := serial_values }

/-- Models `main.rs::build_records`. -/
def build_records : List (Nat × Nat × List Nat) → Except Err (List Record)
  | [] => Except.ok []
  | (_payload_size, row_id, payload_bytes) :: rest =>
    match build_record row_id payload_bytes with
    | Except.error e => Except.error e
    | Except.ok record =>
      match build_records rest with
      | Except.ok records => Except.ok (record :: records)
      | Except.error e => Except.error e

/-- The `for page_i in 2..=database.page_count` loop of
`main.rs::read_records`: each page is sought (errors propagate through
`?`) and its debug print is dropped. -/
def check_pages (db : Database) : List Nat → Except Err Unit
  | [] => Except.ok ()
  | page_i :: rest =>
    match db.seek_to_page page_i with
    | Except.ok _ => check_pages db rest
    | Except.error e => Except.error e

/-- Models `main.rs::read_records`: always starts at page 1, reads the cell
pointers of that page and payloads, seeks pages `2..=page_count` (printing only),
and then builds records only when page 1 is a `LeafTable`; any other page
type hits `todo!(..)`, a Rust panic. -/
def read_records (db : Database) : Except Err (Nat × List Record) :=
  match db.seek_to_page 1 with
  | Except.error e => Except.error e
  | Except.ok (page, pos) =>
    match page.fetch_cell_pointers db.database_file pos with
    | Except.error e => Except.error e
    | Except.ok (cell_pointers, _) =>
      match build_payloads db.page_size page cell_pointers db.database_file with
      | Except.error e => Except.error e
      | Except.ok payloads =>
        match check_pages db (List.range' 2 (db.page_count - 1)) with
        | Except.error e => Except.error e
        | Except.ok _ =>
          match page.header.page_type with
          | BTreePage.LeafTable =>
            match build_records payloads with
            | Except.ok records => Except.ok (db.page_size, records)
            | Except.error e => Except.error e
          | _ => Except.error Err.panic

/-! ## query_parser.rs

The `nom` string combinators are modelled over `List Nat` of Unicode code
points (ASCII in every use below); a parser returns `Except` whose error
carries the input at the point of failure, as a `nom` error value does.
-/

/-- Code points of a string literal, for writing concrete parser inputs. -/
def str (s : String) : List Nat :=
  s.data.map Char.toNat

/-- Models `char::to_lowercase` as used by `str::to_lowercase` on the
ASCII inputs this parser handles: `A..Z` shifts by 32, all else is kept. -/
def to_lower_char (c : Nat) : Nat :=
  if 65 ≤ c ∧ c ≤ 90 then c + 32 else c

/-- Models `str::to_lowercase`. -/
def to_lowercase (s : List Nat) : List Nat :=
  s.map to_lower_char

/-- Result of a modelled `nom` parser: the error side carries the input at
the failing parser, as `nom::Err::Error` does. -/
abbrev NomResult (α : Type) := Except (List Nat) (List Nat × α)

namespace Nom

/-- Models `nom::bytes::complete::tag`. -/
def tag (t input : List Nat) : NomResult (List Nat) :=
  if t.isPrefixOf input then Except.ok (input.drop t.length, t) else Except.error input

/-- Models `nom::bytes::complete::tag_no_case` (ASCII case-insensitive). -/
def tag_no_case (t input : List Nat) : NomResult (List Nat) :=
  if t.length ≤ input.length ∧ to_lowercase (input.take t.length) = to_lowercase t then
    Except.ok (input.drop t.length, input.take t.length)
  else Except.error input

/-- Models `nom::bytes::complete::take_till`: consume until the predicate holds
(or the input ends); never fails. -/
def take_till (p : Nat → Bool) (input : List Nat) : NomResult (List Nat) :=
  Except.ok (input.dropWhile (fun c => !p c), input.takeWhile (fun c => !p c))

/-- Models `char::is_whitespace` restricted to the ASCII whitespace `multispace`
recognises: space, tab, newline, carriage return. -/
def is_multispace (c : Nat) : Bool :=
  c == 32 || c == 9 || c == 10 || c == 13

/-- Models `nom::character::complete::multispace0`. -/
def multispace0 (input : List Nat) : NomResult (List Nat) :=
  Except.ok (input.dropWhile is_multispace, input.takeWhile is_multispace)

/-- Models `nom::character::complete::multispace1`. -/
def multispace1 (input : List Nat) : NomResult (List Nat) :=
  if input.takeWhile is_multispace = [] then Except.error input
  else Except.ok (input.dropWhile is_multispace, input.takeWhile is_multispace)

/-- Alphanumeric code point, ASCII model of `char::is_alphanumeric`. -/
def is_alphanumeric (c : Nat) : Bool :=
  (48 ≤ c && c ≤ 57) || (65 ≤ c && c ≤ 90) || (97 ≤ c && c ≤ 122)

/-- Models `nom::character::complete::alphanumeric1`. -/
def alphanumeric1 (input : List Nat) : NomResult (List Nat) :=
  if input.takeWhile is_alphanumeric = [] then Except.error input
  else Except.ok (input.dropWhile is_alphanumeric, input.takeWhile is_alphanumeric)

/-- Models `nom::character::complete::char`. -/
def char (c : Nat) (input : List Nat) : NomResult Nat :=
  match input with
  | x :: rest => if x == c then Except.ok (rest, c) else Except.error input
  | [] => Except.error input

/-- Models `nom::combinator::opt`. -/
def opt (p : List Nat → NomResult α) (input : List Nat) : NomResult (Option α) :=
  match p input with
  | Except.ok (rest, a) => Except.ok (rest, some a)
  | Except.error _ => Except.ok (input, none)

/-- Models `nom::branch::alt` for two alternatives. -/
def alt2 (p q : List Nat → NomResult α) (input : List Nat) : NomResult α :=
  match p input with
  | Except.ok r => Except.ok r
  | Except.error _ => q input

/-- Models `nom::sequence::delimited`. -/
def delimited (a : List Nat → NomResult α) (b : List Nat → NomResult β)
    (c : List Nat → NomResult γ) (input : List Nat) : NomResult β :=
  match a input with
  | Except.error e => Except.error e
  | Except.ok (i1, _) =>
    match b i1 with
    | Except.error e => Except.error e
    | Except.ok (i2, vb) =>
      match c i2 with
      | Except.error e => Except.error e
      | Except.ok (i3, _) => Except.ok (i3, vb)

/-- Models `nom::sequence::pair`. -/
def pair (a : List Nat → NomResult α) (b : List Nat → NomResult β)
    (input : List Nat) : NomResult (α × β) :=
  match a input with
  | Except.error e => Except.error e
  | Except.ok (i1, va) =>
    match b i1 with
    | Except.error e => Except.error e
    | Except.ok (i2, vb) => Except.ok (i2, (va, vb))

/-- Models `nom::sequence::separated_pair`. -/
def separated_pair (a : List Nat → NomResult α) (s : List Nat → NomResult β)
    (b : List Nat → NomResult γ) (input : List Nat) : NomResult (α × γ) :=
  match a input with
  | Except.error e => Except.error e
  | Except.ok (i1, va) =>
    match s i1 with
    | Except.error e => Except.error e
    | Except.ok (i2, _) =>
      match b i2 with
      | Except.error e => Except.error e
      | Except.ok (i3, vb) => Except.ok (i3, (va, vb))

/-- Models `nom::multi::many_till` loop, with fuel; each success of the element
parser used below consumes at least one code point, so the fuel
`input.length + 1` it is started with never runs out. -/
def many_till_go (f : List Nat → NomResult α) (g : List Nat → NomResult β) :
    List Nat → Nat → NomResult (List α × β)
  | input, 0 => Except.error input
  | input, fuel + 1 =>
    match g input with
    | Except.ok (rest, vg) => Except.ok (rest, ([], vg))
    | Except.error _ =>
      match f input with
      | Except.error e => Except.error e
      | Except.ok (rest, vf) =>
        match many_till_go f g rest fuel with
        | Except.ok (rest', (vfs, vg)) => Except.ok (rest', (vf :: vfs, vg))
        | Except.error e => Except.error e

/-- Models `nom::multi::many_till`. -/
def many_till (f : List Nat → NomResult α) (g : List Nat → NomResult β)
    (input : List Nat) : NomResult (List α × β) :=
  many_till_go f g input (input.length + 1)

/-- The continuation loop of `nom::multi::separated_list1`: stop (and give
back the consumption of the separator) as soon as the separator or the element
fails. -/
def separated_list1_go (s : List Nat → NomResult β) (p : List Nat → NomResult α) :
    List Nat → Nat → NomResult (List α)
  | input, 0 => Except.error input
  | input, fuel + 1 =>
    match s input with
    | Except.error _ => Except.ok (input, [])
    | Except.ok (rest1, _) =>
      match p rest1 with
      | Except.error _ => Except.ok (input, [])
      | Except.ok (rest2, a) =>
        match separated_list1_go s p rest2 fuel with
        | Except.ok (rest3, as_) => Except.ok (rest3, a :: as_)
        | Except.error e => Except.error e

/-- Models `nom::multi::separated_list1`. -/
def separated_list1 (s : List Nat → NomResult β) (p : List Nat → NomResult α)
    (input : List Nat) : NomResult (List α) :=
  match p input with
  | Except.error e => Except.error e
  | Except.ok (rest, a) =>
    match separated_list1_go s p rest (rest.length + 1) with
    | Except.ok (rest', as_) => Except.ok (rest', a :: as_)
    | Except.error e => Except.error e

end Nom

/-- Models `query_parser.rs::FunctionArgument`. -/
inductive FunctionArgument where
  | All : FunctionArgument
  | Columns : List (List Nat) → FunctionArgument
deriving DecidableEq, Repr

/-- Models `query_parser.rs::Function`. -/
inductive Function where
  | Count : FunctionArgument → Function
deriving DecidableEq, Repr

/-- Models `query_parser.rs::Selection`. -/
inductive Selection where
  | ColumnName : List Nat → Selection
  | AggregateFunction : Function → Selection
deriving DecidableEq, Repr

/-- Models `query_parser.rs::AndCondition`. -/
structure AndCondition where
  column_name : List Nat
  value : List Nat
deriving DecidableEq, Repr

/-- Models `query_parser.rs::Query`. -/
structure Query where
  selection_list : List Selection
  from_table : List Nat
  and_conditions : Option (List AndCondition)
deriving DecidableEq, Repr

/-- The per-element map applied to `raw_selections` in
`query_parser.rs::parse_selection_list`: lowercase the raw selection, then
turn `"count(*)"` into the aggregate and anything else into a
`ColumnName` of the lowercased text. -/
def map_selection (raw_selection : List Nat) : Selection :=
  let lowercased := to_lowercase raw_selection
  if lowercased = str ("count(*)") then
    Selection.AggregateFunction (Function.Count FunctionArgument.All)
  else
    Selection.ColumnName lowercased

/-- Models `query_parser.rs::parse_selection_list`. -/
def parse_selection_list (input : List Nat) : NomResult (List Selection) :=
  match Nom.many_till
      (Nom.delimited (Nom.alt2 Nom.multispace1 (Nom.tag (str (","))))
        (Nom.alt2 (Nom.tag_no_case (str ("COUNT(*)"))) Nom.alphanumeric1)
        (Nom.alt2 Nom.multispace1 (Nom.tag (str (",")))))
      (Nom.tag_no_case (str ("from"))) input with
  | Except.error e => Except.error e
  | Except.ok (input, (raw_selections, _from)) =>
    Except.ok (input, raw_selections.map map_selection)

/-- Models `query_parser.rs::parse_where_conditions`.  Code point 32 is the space
the column name runs up to, 61 is the equals sign, 39 is the single quote
delimiting the literal. -/
def parse_where_conditions (input : List Nat) : NomResult (List AndCondition) :=
  match Nom.pair (Nom.tag_no_case (str ("WHERE"))) Nom.multispace1 input with
  | Except.error e => Except.error e
  | Except.ok (input, _) =>
    match Nom.separated_list1
        (Nom.delimited Nom.multispace0 (Nom.tag_no_case (str ("AND"))) Nom.multispace0)
        (Nom.separated_pair (Nom.take_till (fun c => c == 32))
          (Nom.delimited Nom.multispace0 (Nom.char 61) Nom.multispace0)
          (Nom.delimited (Nom.char 39) (Nom.take_till (fun c => c == 39)) (Nom.char 39)))
        input with
    | Except.error e => Except.error e
    | Except.ok (input, raw_conditions) =>
      Except.ok (input, raw_conditions.map
        (fun c => { column_name := c.1, value := c.2 }))

/-- Models `query_parser.rs::parse_query`. -/
def parse_query (input : List Nat) : NomResult Query :=
  match Nom.multispace0 input with
  | Except.error e => Except.error e
  | Except.ok (input, _) =>
    match Nom.tag_no_case (str ("SELECT")) input with
    | Except.error e => Except.error e
    | Except.ok (input, _) =>
      match parse_selection_list input with
      | Except.error e => Except.error e
      | Except.ok (input, selection_list) =>
        match Nom.delimited Nom.multispace0 Nom.alphanumeric1 Nom.multispace0 input with
        | Except.error e => Except.error e
        | Except.ok (input, from_table) =>
          match Nom.opt parse_where_conditions input with
          | Except.error e => Except.error e
          | Except.ok (input, conditions) =>
            match Nom.multispace0 input with
            | Except.error e => Except.error e
            | Except.ok (input, _) =>
              Except.ok (input,
                { selection_list := selection_list
                  from_table := from_table
                  and_conditions := conditions })

theorem read_usable_bytes_aux_encoding (cont : List Nat) (l : Nat) (rest : List Nat) (fuel : Nat)
    (hfuel : cont.length + 1 ≤ fuel)
    (hcont : ∀ b ∈ cont, 128 ≤ b ∧ b < 256) (hl : l < 128) :
    read_usable_bytes_aux ((cont ++ [l]) ++ rest) fuel = Except.ok (cont ++ [l]) := by
  induction cont generalizing fuel with
  | nil =>
    cases fuel with
    | zero => omega
    | succ f =>
      simp [read_usable_bytes_aux, starts_with_zero, Nat.mod_eq_of_lt (by omega : l < 256), hl]
  | cons a cont ih =>
    cases fuel with
    | zero => simp at hfuel
    | succ f =>
      obtain ⟨ha1, ha2⟩ := hcont a (by simp)
      have hsz : starts_with_zero a = false := by
        simp [starts_with_zero, Nat.mod_eq_of_lt ha2]; omega
      have hrec := ih f (by simpa using hfuel) (fun b hb => hcont b (by simp [hb]))
      simp only [List.append_assoc, List.singleton_append] at hrec ⊢
      simp [read_usable_bytes_aux, hsz, hrec]

theorem varint_fold_aux_eq_foldl (bs : List Nat) (i v : Nat) (h : i + bs.length ≤ 8) :
    varint_fold_aux i v bs = bs.foldl (fun value b => value * 128 + b % 128) v := by
  induction bs generalizing i v with
  | nil => simp [varint_fold_aux]
  | cons b bs ih =>
    have hi : (i == 8) = false := by
      simp only [List.length_cons] at h
      simp; omega
    simp only [varint_fold_aux, hi, usable_value, List.foldl_cons, Nat.shiftLeft_eq]
    rw [ih (i + 1) _ (by simp only [List.length_cons] at h ⊢; omega)]
    norm_num

theorem read_usable_bytes_aux_exhausted (stream : List Nat) (fuel : Nat)
    (hlen : stream.length < fuel) (hcont : ∀ b ∈ stream, starts_with_zero b = false) :
    read_usable_bytes_aux stream fuel = Except.error Err.panic := by
  induction stream generalizing fuel with
  | nil =>
    cases fuel with
    | zero => omega
    | succ f => simp [read_usable_bytes_aux]
  | cons a s ih =>
    cases fuel with
    | zero => simp at hlen
    | succ f =>
      have ha := hcont a (by simp)
      have hrec := ih f (by simpa using hlen) (fun b hb => hcont b (by simp [hb]))
      simp [read_usable_bytes_aux, ha, hrec]

theorem read_usable_bytes_from_reader_aux_exhausted (file : List Nat) (fuel pos : Nat)
    (hlen : file.length < pos + fuel) (hfuel : 1 ≤ fuel)
    (hcont : ∀ b ∈ file.drop pos, starts_with_zero b = false) :
    read_usable_bytes_from_reader_aux file pos fuel = Except.error Err.panic := by
  induction fuel generalizing pos with
  | zero => omega
  | succ f ih =>
    match hg : file[pos]? with
    | none => simp [read_usable_bytes_from_reader_aux, hg]
    | some b =>
      have hpos : pos < file.length := (List.getElem?_eq_some.mp hg).1
      have hmem : b ∈ file.drop pos := by
        have h0 : (file.drop pos)[0]? = some b := by
          rw [List.getElem?_drop]; simpa using hg
        obtain ⟨hlt, heq⟩ := List.getElem?_eq_some.mp h0
        exact heq ▸ List.getElem_mem hlt
      cases f with
      | zero => omega
      | succ f =>
        have hb := hcont b hmem
        have hsub : ∀ c ∈ file.drop (pos + 1), c ∈ file.drop pos := by
          intro c hc
          have hdd : file.drop (pos + 1) = (file.drop pos).drop 1 := by
            rw [List.drop_drop]
          rw [hdd] at hc
          exact List.drop_subset 1 _ hc
        have hrec := ih (pos + 1) (by omega) (by omega) (fun c hc => hcont c (hsub c hc))
        conv_lhs => rw [read_usable_bytes_from_reader_aux]
        simp [hg, hb, hrec]

/-- C8: for every varint encoding of 1 to 8 bytes (each byte before the
last has its high bit set, the last has it clear), `parse_varint` returns
the value formed by concatenating the low 7 bits of each byte,
most-significant byte first, together with a byte count equal to the
number of encoded bytes, whatever bytes follow the encoding. -/
theorem parse_varint_short_encoding (cont : List Nat) (l : Nat) (rest : List Nat)
    (hlen : cont.length + 1 ≤ 8)
    (hcont : ∀ b ∈ cont, 128 ≤ b ∧ b < 256) (hl : l < 128) :
    parse_varint ((cont ++ [l]) ++ rest) =
      Except.ok ((cont ++ [l]).foldl (fun value b => value * 128 + b % 128) 0,
        cont.length + 1) := by
  have hread := read_usable_bytes_aux_encoding cont l rest 9 (by omega) hcont hl
  have hfold := varint_fold_aux_eq_foldl (cont ++ [l]) 0 0 (by simp; omega)
  simp only [List.append_assoc, List.singleton_append] at hread
  simp [parse_varint, read_usable_bytes, hread, hfold]

theorem parse_varint_short_encoding_witness :
    parse_varint [129, 38] = Except.ok (166, 2) := by
  have h := parse_varint_short_encoding [129] 38 [] (by norm_num) (by decide) (by norm_num)
  simpa using h

/-- C3: on a 9-byte varint encoding the source does not use the 9th byte
at all: `usable_value` returns the constant `usable_size = 8` instead of
the byte, so the decoded value of eight `0x80` bytes followed by any byte
`b` is 8 (not the low 8 bits of `b`), with 9 bytes consumed. -/
theorem parse_varint_nine_byte_ignores_ninth (b : Nat) :
    parse_varint [128, 128, 128, 128, 128, 128, 128, 128, b] = Except.ok (8, 9) := by
  have h128 : starts_with_zero 128 = false := by decide
  cases hb : starts_with_zero b <;>
    simp [parse_varint, read_usable_bytes, read_usable_bytes_aux, h128, hb,
      varint_fold_aux, usable_value]

/-- C7: a byte source exhausted before a terminating byte (high bit clear)
and before 9 bytes panics in both `parse_varint` (slice index out of
bounds) and `parse_varint_from_reader` (`.unwrap()` of a failed read);
neither returns a typed ShortRead error, no such error type exists. -/
theorem varint_exhausted_source_panics :
    (∀ stream : List Nat, stream.length < 9 →
        (∀ b ∈ stream, starts_with_zero b = false) →
        parse_varint stream = Except.error Err.panic) ∧
    (∀ (file : List Nat) (pos : Nat), file.length < pos + 9 →
        (∀ b ∈ file.drop pos, starts_with_zero b = false) →
        parse_varint_from_reader file pos = Except.error Err.panic) := by
  constructor
  · intro stream h1 h2
    simp [parse_varint, read_usable_bytes, read_usable_bytes_aux_exhausted stream 9 h1 h2]
  · intro file pos h1 h2
    simp [parse_varint_from_reader, read_usable_bytes_from_reader,
      read_usable_bytes_from_reader_aux_exhausted file 9 pos h1 (by norm_num) h2]

theorem varint_exhausted_source_panics_witness :
    parse_varint [128] = Except.error Err.panic ∧
    parse_varint_from_reader [128, 129] 1 = Except.error Err.panic := by
  constructor
  · exact varint_exhausted_source_panics.1 [128] (by norm_num) (by decide)
  · exact varint_exhausted_source_panics.2 [128, 129] 1 (by norm_num) (by decide)

set_option maxRecDepth 8000

/-- C4: the `Int24` and `Int48` branches of `SerialValue::parse` zero-pad
the high bytes (`i32::from_be_bytes([0, ..])`, `i64::from_be_bytes([0, 0,
..])`) instead of sign-extending, so the all-ones Int24 payload decodes to
16777215 and the all-ones Int48 payload to 281474976710655 rather than -1. -/
theorem serial_value_int24_int48_zero_extended :
    SerialValue.parse [255, 255, 255] 0 SerialType.Int24
      = Except.ok (SerialValue.Int24 16777215, 3) ∧
    SerialValue.parse [255, 255, 255, 255, 255, 255] 0 SerialType.Int48
      = Except.ok (SerialValue.Int48 281474976710655, 6) := ⟨rfl, rfl⟩

/-- C5: serial-type codes 10 and 11 make `SerialType::from` hit `todo!()`,
a Rust panic, rather than return a typed FormatError to the caller. -/
theorem serial_type_reserved_codes_panic :
    SerialType.fromCode 10 = Except.error Err.panic ∧
    SerialType.fromCode 11 = Except.error Err.panic := ⟨rfl, rfl⟩

/-- C6: a payload whose record-header varints cannot consume exactly the
declared header length makes `build_records` underflow the `usize`
subtraction `record_header_bytes_remaining -= col_type_bytes_read` and
panic (here: declared header length 2, so 1 byte remains after the length
varint, but the next serial-type varint takes 2 bytes); no FormatError is
returned. -/
theorem build_records_header_mismatch_panics :
    build_records [(3, 1, [2, 129, 1])] = Except.error Err.panic := by
  have hb1 : ([2, 129, 1] : List Nat)[1] = 129 := rfl
  simp [hb1, build_records, build_record, parse_serial_types, parse_varint_from_reader,
    read_usable_bytes_from_reader, read_usable_bytes_from_reader_aux, SerialType.fromCode,
    starts_with_zero, varint_fold_aux, usable_value, List.getElem_cons_succ,
    List.getElem_cons_zero]

/-- C1: a leaf-table cell whose payload size exceeds the local capacity
(usable page size 200, so X = 165, and declared payload size 166) makes
`build_payloads` bail with the error "Unhandled overflow" after computing
the threshold formulas; no inline prefix is kept and no overflow chain is
followed. -/
theorem build_payloads_overflow_bails :
    build_payloads 200 ⟨⟨BTreePage.LeafTable, 0, 1, 0, 0⟩⟩ [0]
      ([129, 38, 1] ++ List.replicate 166 7)
      = Except.error (Err.bail ("Unhandled overflow")) := by rfl

/-- C2: `read_records` does not traverse a table B-tree: on a database
whose root page (page 1, the only page it ever starts from) is a
TableInterior page (type tag 5) it hits `todo!(..)` and panics instead of
descending to child pages and yielding records. -/
theorem read_records_interior_root_panics :
    read_records ⟨108, 1, List.replicate 100 0 ++ [5, 0, 0, 0, 0, 0, 0, 0]⟩
      = Except.error Err.panic := by rfl

theorem to_lower_char_idem (c : Nat) : to_lower_char (to_lower_char c) = to_lower_char c := by
  by_cases h : 65 ≤ c ∧ c ≤ 90
  · simp only [to_lower_char, if_pos h]
    rw [if_neg (by omega)]
  · simp only [to_lower_char, if_neg h]

theorem to_lowercase_idem (s : List Nat) : to_lowercase (to_lowercase s) = to_lowercase s := by
  induction s with
  | nil => rfl
  | cons c s ih =>
    simp only [to_lowercase, List.map_cons] at ih ⊢
    rw [to_lower_char_idem, ih]

theorem map_selection_lowercase (raw s : List Nat)
    (h : map_selection raw = Selection.ColumnName s) : to_lowercase s = s := by
  by_cases hc : to_lowercase raw = str ("count(*)")
  · simp [map_selection, hc] at h
  · simp only [map_selection, if_neg hc] at h
    cases h
    exact to_lowercase_idem raw

theorem parse_selection_list_lowercase (input rem : List Nat) (sels : List Selection)
    (h : parse_selection_list input = Except.ok (rem, sels)) :
    ∀ s, Selection.ColumnName s ∈ sels → to_lowercase s = s := by
  unfold parse_selection_list at h
  split at h
  · cases h
  · injection h with h'
    intro s hs
    have h2 : _ = sels := congrArg Prod.snd h'
    rw [← h2] at hs
    obtain ⟨raw, _, heq⟩ := List.mem_map.mp hs
    exact map_selection_lowercase raw s heq

/-- C10: every column name in the selection list of a successfully parsed
query is stored lowercased (applying `to_lowercase` to it is the
identity), because `parse_selection_list` lowercases each raw selection
before wrapping it in `ColumnName`. -/
theorem parse_query_columns_lowercased (input rem : List Nat) (q : Query)
    (h : parse_query input = Except.ok (rem, q)) :
    ∀ s, Selection.ColumnName s ∈ q.selection_list → to_lowercase s = s := by
  unfold parse_query at h
  cases hm0 : Nom.multispace0 input with
  | error e => simp [hm0] at h
  | ok p0 =>
    obtain ⟨i0, w0⟩ := p0
    simp only [hm0] at h
    cases ht : Nom.tag_no_case (str ("SELECT")) i0 with
    | error e => simp [ht] at h
    | ok p1 =>
      obtain ⟨i1, w1⟩ := p1
      simp only [ht] at h
      cases hsel : parse_selection_list i1 with
      | error e => simp [hsel] at h
      | ok p2 =>
        obtain ⟨i2, sels⟩ := p2
        simp only [hsel] at h
        cases htb : Nom.delimited Nom.multispace0 Nom.alphanumeric1 Nom.multispace0 i2 with
        | error e => simp [htb] at h
        | ok p3 =>
          obtain ⟨i3, tbl⟩ := p3
          simp only [htb] at h
          cases hw : Nom.opt parse_where_conditions i3 with
          | error e => simp [hw] at h
          | ok p4 =>
            obtain ⟨i4, conds⟩ := p4
            simp only [hw] at h
            cases hm5 : Nom.multispace0 i4 with
            | error e => simp [hm5] at h
            | ok p5 =>
              obtain ⟨i5, w5⟩ := p5
              simp only [hm5] at h
              injection h with h'
              have h2 : _ = q := congrArg Prod.snd h'
              subst h2
              intro s hs
              exact parse_selection_list_lowercase i1 i2 sels hsel s hs

theorem parse_query_columns_lowercased_witness :
    to_lowercase (str ("name")) = str ("name") := by
  exact parse_query_columns_lowercased (str ("SELECT Name FROM t")) []
    ⟨[Selection.ColumnName (str ("name"))], str ("t"), none⟩ rfl (str ("name")) (by simp)

/-- C9 counterexample: an input with trailing garbage after the final
condition does not fail: `parse_query` returns a successful parse and
leaves the garbage as the unconsumed remainder (code point 39 is the
single quote). -/
theorem parse_query_trailing_garbage_parses :
    parse_query (str ("SELECT a FROM t WHERE x = ") ++ [39] ++ str ("y") ++ [39]
        ++ str (" garbage"))
      = Except.ok (str ("garbage"),
          { selection_list := [Selection.ColumnName (str ("a"))]
            from_table := str ("t")
            and_conditions := some [{ column_name := str ("x"), value := str ("y") }] }) := by
  rfl

/-- C9 (amended): a missing FROM and an empty selection list do fail, with
the error carrying the input left at the failing sub-parser; but an
unterminated string literal makes `opt` silently drop the whole WHERE
clause and succeed with the clause as the unconsumed remainder, and
trailing garbage after the final condition likewise yields a successful
parse with the garbage as the remainder. -/
theorem parse_query_error_behaviour :
    parse_query (str ("SELECT a, b")) = Except.error [] ∧
    parse_query (str ("SELECT FROM t")) = Except.error (str ("t")) ∧
    parse_query (str ("SELECT a FROM t WHERE x = ") ++ [39] ++ str ("abc"))
      = Except.ok (str ("WHERE x = ") ++ [39] ++ str ("abc"),
          { selection_list := [Selection.ColumnName (str ("a"))]
            from_table := str ("t")
            and_conditions := none }) ∧
    parse_query (str ("SELECT a FROM t zzz"))
      = Except.ok (str ("zzz"),
          { selection_list := [Selection.ColumnName (str ("a"))]
            from_table := str ("t")
            and_conditions := none }) := by
  exact ⟨rfl, rfl, rfl, rfl⟩

/-- Witness for the 9-byte varint theorem at the concrete 9th byte 0x42. -/
theorem parse_varint_nine_byte_ignores_ninth_witness :
    parse_varint [128, 128, 128, 128, 128, 128, 128, 128, 66] = Except.ok (8, 9) :=
  parse_varint_nine_byte_ignores_ninth 66
